import Mathlib

/-!
Shallow embedding of `src/main.ts` (the "no-more-leaks" EdgeWorker) and
verification of the frozen claims about it.

Modelling conventions:
* JSON numbers are modelled as integers (`Int`); no claim involves
  non-integer numerics.
* A JavaScript value that can be `undefined` is modelled by `JsValue`;
  JS `null` is the JSON value `Json.null`.
* A thrown (and possibly caught) JS exception is modelled by
  `Except Unit`, with `.error ()` standing for the raised `TypeError`.
* String indexing is by characters (the source never indexes strings).
* `JSON.stringify` is modelled by `jsonStringify` with the common escape
  sequences; `JSON.stringify(undefined)`, which yields the value
  `undefined` rather than a string, is modelled as `none`.
-/

namespace NoMoreLeaks

/-- JSON values as produced by `JSON.parse`; numbers modelled as integers. -/
inductive Json where
  | null
  | bool (b : Bool)
  | num (n : Int)
  | str (s : String)
  | arr (elems : List Json)
  | obj (fields : List (String × Json))
deriving Repr

mutual

/-- Boolean equality on JSON values (the nested inductive blocks deriving). -/
def Json.beq : Json → Json → Bool
  | .null, .null => true
  | .bool a, .bool b => a == b
  | .num a, .num b => a == b
  | .str a, .str b => a == b
  | .arr a, .arr b => Json.beqList a b
  | .obj a, .obj b => Json.beqFields a b
  | _, _ => false

/-- Boolean equality on lists of JSON values. -/
def Json.beqList : List Json → List Json → Bool
  | [], [] => true
  | a :: as, b :: bs => Json.beq a b && Json.beqList as bs
  | _, _ => false

/-- Boolean equality on JS-object field lists. -/
def Json.beqFields : List (String × Json) → List (String × Json) → Bool
  | [], [] => true
  | (k, v) :: as, (k2, v2) :: bs => k == k2 && Json.beq v v2 && Json.beqFields as bs
  | _, _ => false

end

mutual

theorem Json.eq_of_beq : ∀ a b : Json, Json.beq a b = true → a = b
  | .null, .null, _ => rfl
  | .bool a, .bool b, h => by simpa [Json.beq] using h
  | .num a, .num b, h => by simpa [Json.beq] using h
  | .str a, .str b, h => by simpa [Json.beq] using h
  | .arr a, .arr b, h => by
      rw [Json.eq_of_beqList a b (by simpa [Json.beq] using h)]
  | .obj a, .obj b, h => by
      rw [Json.eq_of_beqFields a b (by simpa [Json.beq] using h)]

theorem Json.eq_of_beqList : ∀ a b : List Json, Json.beqList a b = true → a = b
  | [], [], _ => rfl
  | a :: as, b :: bs, h => by
      have h2 := h
      simp only [Json.beqList, Bool.and_eq_true] at h2
      rw [Json.eq_of_beq a b h2.1, Json.eq_of_beqList as bs h2.2]

theorem Json.eq_of_beqFields :
    ∀ a b : List (String × Json), Json.beqFields a b = true → a = b
  | [], [], _ => rfl
  | (k, v) :: as, (k2, v2) :: bs, h => by
      have h2 := h
      simp only [Json.beqFields, Bool.and_eq_true, beq_iff_eq] at h2
      rw [h2.1.1, Json.eq_of_beq v v2 h2.1.2, Json.eq_of_beqFields as bs h2.2]

end

mutual

theorem Json.beq_refl : ∀ a : Json, Json.beq a a = true
  | .null => rfl
  | .bool a => by simp [Json.beq]
  | .num a => by simp [Json.beq]
  | .str a => by simp [Json.beq]
  | .arr a => by simpa [Json.beq] using Json.beqList_refl a
  | .obj a => by simpa [Json.beq] using Json.beqFields_refl a

theorem Json.beqList_refl : ∀ a : List Json, Json.beqList a a = true
  | [] => rfl
  | a :: as => by
      simp only [Json.beqList, Bool.and_eq_true]
      exact ⟨Json.beq_refl a, Json.beqList_refl as⟩

theorem Json.beqFields_refl :
    ∀ a : List (String × Json), Json.beqFields a a = true
  | [] => rfl
  | (k, v) :: as => by
      simp only [Json.beqFields, Bool.and_eq_true]
      exact ⟨⟨by simp, Json.beq_refl v⟩, Json.beqFields_refl as⟩

end

instance : DecidableEq Json := fun a b =>
  if h : Json.beq a b = true then isTrue (Json.eq_of_beq a b h)
  else isFalse (fun he => h (he ▸ Json.beq_refl a))

/-- A JavaScript value arising from property access: a JSON value or `undefined`. -/
inductive JsValue where
  | undefined
  | json (j : Json)
deriving Repr, DecidableEq

/-- First-match lookup in a JS-object field list. -/
def objGet (fields : List (String × Json)) (k : String) : Option Json :=
  (fields.find? (fun p => p.1 == k)).map (·.2)

/-- Decimal value of a digit list (none when a non-digit occurs). -/
def charsToNatAux : List Char → Nat → Option Nat
  | [], acc => some acc
  | c :: cs, acc =>
    if 48 ≤ c.toNat && c.toNat ≤ 57 then
      charsToNatAux cs (acc * 10 + (c.toNat - 48))
    else none

/-- A string that is a canonical (array-index style) decimal numeral:
digits only, no leading zero. -/
def canonIdx? (s : String) : Option Nat :=
  match s.toList with
  | [] => none
  | ['0'] => some 0
  | '0' :: _ :: _ => none
  | cs => charsToNatAux cs 0

/-- JS property read `j[k]` on a JSON value: `undefined` for a missing
property, a thrown `TypeError` (`.error`) when `j` is `null`. -/
def jsGetField (j : Json) (k : String) : Except Unit JsValue :=
  match j with
  | .null => .error ()
  | .bool _ => .ok .undefined
  | .num _ => .ok .undefined
  | .str s =>
    if k = "length" then .ok (.json (.num s.length))
    else
      match canonIdx? k with
      | some i =>
        match s.toList.get? i with
        | some c => .ok (.json (.str (String.singleton c)))
        | none => .ok .undefined
      | none => .ok .undefined
  | .arr xs =>
    if k = "length" then .ok (.json (.num xs.length))
    else
      match canonIdx? k with
      | some i =>
        match xs.get? i with
        | some x => .ok (.json x)
        | none => .ok .undefined
      | none => .ok .undefined
  | .obj fs =>
    match objGet fs k with
    | some v => .ok (.json v)
    | none => .ok .undefined

/-- JS property read on a possibly-`undefined` value; reading a property of
`undefined` throws. -/
def jsValGetField (v : JsValue) (k : String) : Except Unit JsValue :=
  match v with
  | .undefined => .error ()
  | .json j => jsGetField j k

/-- The JS `k in j` operator: property-presence test; throws a `TypeError`
when the right-hand side is not an object. -/
def jsIn (k : String) (j : Json) : Except Unit Bool :=
  match j with
  | .null => .error ()
  | .bool _ => .error ()
  | .num _ => .error ()
  | .str _ => .error ()
  | .arr xs =>
    .ok (k = "length" || (match canonIdx? k with
      | some i => decide (i < xs.length)
      | none => false))
  | .obj fs => .ok (objGet fs k).isSome

/-- Whitespace for the purposes of JS string-to-number trimming. -/
def isWsChar (c : Char) : Bool :=
  c = ' ' || c = '\t' || c = '\n' || c = '\r'

/-- JS `ToNumber` on a string, for integer numerals only; `none` is `NaN`. -/
def strToNumber? (s : String) : Option Int :=
  let t := ((s.toList.dropWhile isWsChar).reverse.dropWhile isWsChar).reverse
  match t with
  | [] => some 0
  | '-' :: cs =>
    match cs with
    | [] => none
    | _ => (charsToNatAux cs 0).map (fun n => -(n : Int))
  | cs => (charsToNatAux cs 0).map (fun n => (n : Int))

/-- JS `ToNumber` of an array (via its string conversion); `none` is `NaN`. -/
def arrToNumber? : List Json → Option Int
  | [] => some 0
  | [x] =>
    match x with
    | .null => some 0
    | .num n => some n
    | .str s => strToNumber? s
    | .arr ys => arrToNumber? ys
    | _ => none
  | _ => none

/-- JS `ToNumber` of a value; `none` is `NaN`. Plain JSON objects convert
through the string form `[object Object]`, which is `NaN`. -/
def toNumber? (v : JsValue) : Option Int :=
  match v with
  | .undefined => none
  | .json .null => some 0
  | .json (.bool b) => some (if b then 1 else 0)
  | .json (.num n) => some n
  | .json (.str s) => strToNumber? s
  | .json (.arr xs) => arrToNumber? xs
  | .json (.obj _) => none

/-- JS comparison `v > n` for a numeric literal `n`: `false` on `NaN`. -/
def jsGtInt (v : JsValue) (n : Int) : Bool :=
  match toNumber? v with
  | some m => m > n
  | none => false

/-- JS truthiness of a value. -/
def truthy : JsValue → Bool
  | .undefined => false
  | .json .null => false
  | .json (.bool b) => b
  | .json (.num n) => n != 0
  | .json (.str s) => s != ""
  | .json (.arr _) => true
  | .json (.obj _) => true

/-- JSON string escaping for the common escape sequences. -/
def escapeJsonChar (c : Char) : String :=
  if c = '"' then "\\\""
  else if c = '\\' then "\\\\"
  else if c = '\n' then "\\n"
  else if c = '\t' then "\\t"
  else if c = '\r' then "\\r"
  else String.singleton c

/-- Quote a string as a JSON string literal. -/
def quoteStr (s : String) : String :=
  "\"" ++ String.join (s.toList.map escapeJsonChar) ++ "\""

mutual

/-- `JSON.stringify` on a JSON value (always yields a string). -/
def jsonStringify : Json → String
  | .null => "null"
  | .bool b => cond b "true" "false"
  | .num n => toString n
  | .str s => quoteStr s
  | .arr xs => "[" ++ stringifyElems xs ++ "]"
  | .obj fs => "\x7b" ++ stringifyFields fs ++ "\x7d"

/-- Comma-separated serialization of array elements. -/
def stringifyElems : List Json → String
  | [] => ""
  | [x] => jsonStringify x
  | x :: y :: xs => jsonStringify x ++ "," ++ stringifyElems (y :: xs)

/-- Comma-separated serialization of object fields. -/
def stringifyFields : List (String × Json) → String
  | [] => ""
  | [(k, v)] => quoteStr k ++ ":" ++ jsonStringify v
  | (k, v) :: f :: fs => quoteStr k ++ ":" ++ jsonStringify v ++ "," ++ stringifyFields (f :: fs)

end

/-- `JSON.stringify` on a possibly-`undefined` value: stringifying
`undefined` yields the value `undefined` (no string), modelled as `none`. -/
def stringifyJsValue : JsValue → Option String
  | .undefined => none
  | .json j => some (jsonStringify j)

/-! ### Header mappings

EdgeWorkers header mappings associate a header name with an array of
values.  The synthetic leak-flag header is written as the array
`[JSON.stringify(knownKey)]`, whose single element is `undefined` when
`knownKey` is `undefined`; hence values are `Option String`. -/

/-- A header value: an array of strings (elements may be `undefined`). -/
abbrev HVal := List (Option String)

/-- A header mapping, as an association list in object-key order. -/
abbrev Headers := List (String × HVal)

/-- First-match header lookup (JS object property read). -/
def getHeader (h : Headers) (k : String) : Option HVal :=
  (h.find? (fun p => p.1 == k)).map (·.2)

/-- The deny-list exactly as written in the source, including the
mixed-case entry for the proxy-authenticate name. -/
def headersToRemove : List String :=
  ["host", "content-length", "transfer-encoding", "connection", "vary",
   "accept-encoding", "content-encoding", "keep-alive", "Proxy-Authenticate",
   "proxy-authorization", "te", "trailers", "upgrade"]

/-- The `headersToRemove.forEach((element) => delete requestHeaders[element])`
loop: JS `delete` removes exactly the listed property names, by exact
string match. -/
def removeHeaders (h : Headers) : Headers :=
  h.filter (fun p => !(headersToRemove.contains p.1))

/-- JS property assignment `h[k] = v` on a header object: overwrite in
place when the key is present, append otherwise. -/
def setHeader (h : Headers) (k : String) (v : HVal) : Headers :=
  if h.any (fun p => p.1 == k) then
    h.map (fun p => if p.1 == k then (k, v) else p)
  else h ++ [(k, v)]

/-- Name of the synthetic leak-flag header added for the origin request. -/
def leakHeaderName : String := "x-nomoreleaks-hit"

/-! ### Outcomes of the outbound HTTP calls (the environment) -/

/-- `result.ok` of the platform: a 2xx-class status. -/
def statusOk (s : Nat) : Bool := 200 ≤ s && s < 300

instance {ε α : Type} [DecidableEq ε] [DecidableEq α] : DecidableEq (Except ε α)
  | .error a, .error b =>
    if h : a = b then isTrue (by rw [h]) else isFalse (by intro he; cases he; exact h rfl)
  | .ok a, .ok b =>
    if h : a = b then isTrue (by rw [h]) else isFalse (by intro he; cases he; exact h rfl)
  | .error _, .ok _ => isFalse (by intro he; cases he)
  | .ok _, .error _ => isFalse (by intro he; cases he)

/-- A completed sub-request: its status and the outcome of `result.json()`
(`.error` when the body is not parseable JSON). -/
structure FetchResp where
  status : Nat
  jsonBody : Except Unit Json
deriving Repr, DecidableEq

/-- Outcome of `httpRequest` for the key-generator and key-lookup calls:
either the promise rejects (network error) or a response arrives. -/
inductive FetchOutcome where
  | netError
  | resp (r : FetchResp)
deriving Repr, DecidableEq

/-- The origin's response: status, headers and body. -/
structure OriginResp where
  status : Nat
  headers : Headers
  body : String
deriving Repr, DecidableEq

/-- Outcome of the `httpRequest` to the origin. -/
inductive OriginOutcome where
  | netError
  | resp (r : OriginResp)
deriving Repr, DecidableEq

/-- The outcomes the three outbound calls would have in this invocation. -/
structure Env where
  keyGen : FetchOutcome
  lookup : FetchOutcome
  origin : OriginOutcome
deriving Repr, DecidableEq

/-! ### The pipeline stages -/

/-- The inline validation of `responseProvider` (lines 64-77 of the
source): `hasBody`, `hasCredentials` and `bodyIsValid`, with JS
short-circuit evaluation; `.error` is an uncaught `TypeError` (thrown by
`in` on a primitive body, or by `.length` on a `null` field value). -/
def bodyIsValid (body : Json) : Except Unit Bool :=
  if body = Json.null then .ok false
  else
    match jsIn "username" body with
    | .error e => .error e
    | .ok hu =>
      if !hu then .ok false
      else
        match jsIn "password" body with
        | .error e => .error e
        | .ok hp =>
          if !hp then .ok false
          else
            match jsGetField body "username" with
            | .error e => .error e
            | .ok uval =>
              match jsValGetField uval "length" with
              | .error e => .error e
              | .ok ulen =>
                if !(jsGtInt ulen 1) then .ok false
                else
                  match jsGetField body "password" with
                  | .error e => .error e
                  | .ok pval =>
                    match jsValGetField pval "length" with
                    | .error e => .error e
                    | .ok plen => .ok (jsGtInt plen 2)

/-- `getKeyFromKeyGenerator`: POSTs the credentials and extracts the
`key` field of the JSON reply. Every failure path — rejected request,
non-2xx status, unparseable reply, or a `key` access/`substring` call
that throws or yields a non-string — returns `null` (`none`). -/
def getKeyFromKeyGenerator (o : FetchOutcome) : Option String :=
  match o with
  | .netError => none
  | .resp r =>
    if statusOk r.status then
      match r.jsonBody with
      | .error _ => none
      | .ok j =>
        match jsGetField j "key" with
        | .error _ => none
        | .ok v =>
          match v with
          | .json (.str s) => some s
          | _ => none
    else none

/-- `keyExists`: GETs the lookup endpoint and returns
`response[0]["result"]`. A rejected request, non-2xx status, unparseable
reply, or a property access that throws is caught and yields `false`;
otherwise the accessed value is returned verbatim (possibly `undefined`
or a non-boolean). -/
def keyExists (o : FetchOutcome) : JsValue :=
  match o with
  | .netError => .json (.bool false)
  | .resp r =>
    if statusOk r.status then
      match r.jsonBody with
      | .error _ => .json (.bool false)
      | .ok j =>
        match jsGetField j "0" with
        | .error _ => .json (.bool false)
        | .ok v0 =>
          match jsValGetField v0 "result" with
          | .error _ => .json (.bool false)
          | .ok res => res
    else .json (.bool false)

/-- The key-derivation and key-lookup stages of `responseProvider`
(lines 77-97), for an already-computed `bodyIsValid`: yields the final
`knownKey` value together with whether the key-generator and the lookup
endpoints were called. The lookup runs only when `if (key)` is truthy,
i.e. the derived key is a non-empty string. -/
def leakCheck (valid : Bool) (env : Env) : JsValue × Bool × Bool :=
  if valid then
    match getKeyFromKeyGenerator env.keyGen with
    | some s =>
      if s = "" then (.json (.bool false), true, false)
      else (keyExists env.lookup, true, true)
    | none => (.json (.bool false), true, false)
  else (.json (.bool false), false, false)

/-- The inbound request: headers, method, and the result of
`request.json().catch(() => null)` — an absent or unparseable body is
already `Json.null` here. -/
structure Request where
  headers : Headers
  method : String
  body : Json
deriving Repr, DecidableEq

/-- What `responseProvider` produces: a resolved response, a rejected
promise with a reason string, or an uncaught exception. -/
inductive RPResult where
  | response (status : Nat) (headers : Headers) (body : String)
  | rejected (reason : String)
  | thrown
deriving Repr, DecidableEq

/-- Observables of one invocation: which outbound calls were made, what
was sent to the origin, and the final `knownKey` value. `sentHeaders`,
`sentBody` and `sentMethod` are meaningful only when `originCalled`. -/
structure Trace where
  keyGenCalled : Bool
  lookupCalled : Bool
  originCalled : Bool
  sentHeaders : Headers
  sentMethod : String
  sentBody : String
  flag : JsValue
deriving Repr, DecidableEq

/-- The fixed warning page served on a leak hit. -/
def warningHtml : String :=
  "<html><body><p>Something wrong with your account, Please contact helpdesk.</p></body></html>"

/-- The marker header of the synthesized warning response. -/
def poweredByHeaders : Headers :=
  [("Powered-By", [some "Akamai EdgeWorkers - No More Leaks Module"])]

/-- `responseProvider`: validate the body, derive and look up the key,
relay to the origin with filtered and annotated headers and the
re-serialized body, and decide the final response. An uncaught
`TypeError` in validation, or a rejected origin request, throws. -/
def responseProvider (req : Request) (env : Env) : RPResult × Trace :=
  match bodyIsValid req.body with
  | .error _ =>
      (.thrown, ⟨false, false, false, [], "", "", .json (.bool false)⟩)
  | .ok valid =>
    let c := leakCheck valid env
    let knownKey := c.1
    let sentHeaders :=
      setHeader (removeHeaders req.headers) leakHeaderName [stringifyJsValue knownKey]
    let sentBody := jsonStringify req.body
    let tr : Trace := ⟨c.2.1, c.2.2, true, sentHeaders, req.method, sentBody, knownKey⟩
    match env.origin with
    | .netError => (.thrown, tr)
    | .resp r =>
      if truthy knownKey && statusOk r.status then
        (.response 200 poweredByHeaders warningHtml, tr)
      else if statusOk r.status then
        (.response r.status r.headers r.body, tr)
      else
        (.rejected ("failed sub-request: " ++ toString r.status), tr)

/-! ### Predicates used to state the claims -/

/-- Whether a body "has" a property, with the throwing cases of the `in`
operator (non-object bodies) counting as not having it. -/
def jsHasField (body : Json) (k : String) : Bool :=
  match jsIn k body with
  | .ok b => b
  | .error _ => false

/-- The domain quantified over by the claim about invalid bodies: the
parsed body is JSON `null`, lacks one of the credential fields, or has a
username of length at most 1 or a password of length at most 2. -/
def c2ClaimDomain (body : Json) : Prop :=
  body = Json.null ∨
  ¬(jsHasField body "username" = true ∧ jsHasField body "password" = true) ∨
  (∃ s, jsGetField body "username" = .ok (.json (.str s)) ∧ s.length ≤ 1) ∨
  (∃ s, jsGetField body "password" = .ok (.json (.str s)) ∧ s.length ≤ 2)

/-- Bodies on which the validation's property accesses cannot throw:
JSON `null`, an array, or an object whose credential fields (where
present) are not JSON `null`. -/
def safeBody (body : Json) : Prop :=
  body = Json.null ∨ (∃ xs, body = Json.arr xs) ∨
  (∃ fs, body = Json.obj fs ∧
    objGet fs "username" ≠ some Json.null ∧ objGet fs "password" ≠ some Json.null)

/-- The reply of a 2xx key-generator response is missing the `key`
field: reading it yields `undefined`, or throws because the reply is
JSON `null`. -/
def keyGenReplyMissingKey (r : FetchResp) : Prop :=
  ∃ j, r.jsonBody = .ok j ∧
    (jsGetField j "key" = .ok .undefined ∨ jsGetField j "key" = .error ())

/-- The failure modes of the key-generator call enumerated by the claim:
network error, non-success HTTP status, JSON-parse error, or a reply
missing the `key` field. -/
def keyGenFailure (o : FetchOutcome) : Prop :=
  o = .netError ∨
  ∃ r, o = .resp r ∧
    (statusOk r.status = false ∨ r.jsonBody = .error () ∨ keyGenReplyMissingKey r)

/-- The evaluation of `response[0]["result"]` on a parsed lookup reply. -/
def lookupResultAccess (j : Json) : Except Unit JsValue :=
  match jsGetField j "0" with
  | .error e => .error e
  | .ok v0 => jsValGetField v0 "result"

/-- ASCII lower-casing of a character (for stating case-insensitivity). -/
def lowerChar (c : Char) : Char :=
  if 65 ≤ c.toNat && c.toNat ≤ 90 then Char.ofNat (c.toNat + 32) else c

/-- ASCII lower-casing of a header name. -/
def lowerStr (s : String) : String := String.mk (s.toList.map lowerChar)

/-- A sample inbound request used to instantiate universally quantified
claims: no valid credentials, one deny-listed and one ordinary header. -/
def sampleReq : Request :=
  ⟨[("host", [some "h"]), ("x-custom", [some "o"])], "GET", Json.null⟩

/-- A sample environment for the sample request: the auxiliary calls
would fail, the origin answers 200. -/
def sampleEnv : Env := ⟨.netError, .netError, .resp ⟨200, [], "OK"⟩⟩

/-! ### Lemmas about the header operations -/

theorem bool_eq_false (b : Bool) (h : ¬ b = true) : b = false := by
  cases b
  · rfl
  · exact absurd rfl h

theorem find?_map_set_ne (h : Headers) (k : String) (v : HVal) (name : String)
    (hne : name ≠ k) :
    (h.map (fun p => if p.1 == k then (k, v) else p)).find? (fun p => p.1 == name) =
      h.find? (fun p => p.1 == name) := by
  induction h with
  | nil => rfl
  | cons a tl ih =>
    by_cases hak : a.1 = k
    · rw [List.map_cons, if_pos (by simpa using hak)]
      rw [List.find?_cons_of_neg _ (by simpa using Ne.symm hne)]
      rw [List.find?_cons_of_neg _ (by simp [hak]; exact fun he => hne he.symm)]
      exact ih
    · rw [List.map_cons, if_neg (by simpa using hak)]
      by_cases han : a.1 = name
      · rw [List.find?_cons_of_pos _ (by simpa using han),
          List.find?_cons_of_pos _ (by simpa using han)]
      · rw [List.find?_cons_of_neg _ (by simpa using han),
          List.find?_cons_of_neg _ (by simpa using han)]
        exact ih

theorem find?_map_set_eq (h : Headers) (k : String) (v : HVal)
    (hany : h.any (fun p => p.1 == k) = true) :
    (h.map (fun p => if p.1 == k then (k, v) else p)).find? (fun p => p.1 == k) =
      some (k, v) := by
  induction h with
  | nil => simp at hany
  | cons a tl ih =>
    by_cases hak : a.1 = k
    · rw [List.map_cons, if_pos (by simpa using hak)]
      rw [List.find?_cons_of_pos _ (by simp)]
    · rw [List.map_cons, if_neg (by simpa using hak)]
      rw [List.find?_cons_of_neg _ (by simpa using hak)]
      have htl : tl.any (fun p => p.1 == k) = true := by
        simp only [List.any_cons, Bool.or_eq_true] at hany
        exact hany.resolve_left (by simpa using hak)
      exact ih htl

theorem find?_eq_none_of_any_false (h : Headers) (k : String)
    (hany : h.any (fun p => p.1 == k) = false) :
    h.find? (fun p => p.1 == k) = none := by
  induction h with
  | nil => rfl
  | cons a tl ih =>
    simp only [List.any_cons, Bool.or_eq_false_iff] at hany
    rw [List.find?_cons_of_neg _ (by simp [hany.1])]
    exact ih hany.2

/-- JS property assignment followed by lookup: the assigned key reads
back the new value, every other key is unaffected. -/
theorem getHeader_setHeader (h : Headers) (k : String) (v : HVal) (name : String) :
    getHeader (setHeader h k v) name =
      if name = k then some v else getHeader h name := by
  unfold setHeader getHeader
  by_cases hany : h.any (fun p => p.1 == k) = true
  · rw [if_pos hany]
    by_cases hnk : name = k
    · subst hnk
      rw [find?_map_set_eq h name v hany, if_pos rfl]
      rfl
    · rw [find?_map_set_ne h k v name hnk, if_neg hnk]
  · rw [if_neg hany, List.find?_append]
    by_cases hnk : name = k
    · subst hnk
      rw [find?_eq_none_of_any_false h name (bool_eq_false _ hany)]
      simp
    · have h1 : List.find? (fun p => p.1 == name) [(k, v)] = none := by
        rw [List.find?_cons_of_neg _ (by simpa using Ne.symm hnk)]
        rfl
      rw [h1, if_neg hnk]
      cases h.find? (fun p => p.1 == name) <;> rfl

/-- Deleting the deny-listed names removes exactly them from lookups. -/
theorem getHeader_removeHeaders_mem (h : Headers) (name : String)
    (hn : name ∈ headersToRemove) : getHeader (removeHeaders h) name = none := by
  unfold removeHeaders getHeader
  induction h with
  | nil => rfl
  | cons a tl ih =>
    by_cases had : headersToRemove.contains a.1 = true
    · rw [List.filter_cons_of_neg (by simp only [had]; simp)]
      exact ih
    · have hane : a.1 ≠ name := by
        intro he
        apply had
        rw [he]
        simpa using hn
      rw [List.filter_cons_of_pos (by simp only [bool_eq_false _ had]; rfl)]
      rw [List.find?_cons_of_neg _ (by simpa using hane)]
      exact ih

/-- Names outside the deny-list read back unchanged after the deletes. -/
theorem getHeader_removeHeaders_not_mem (h : Headers) (name : String)
    (hn : name ∉ headersToRemove) :
    getHeader (removeHeaders h) name = getHeader h name := by
  unfold removeHeaders getHeader
  induction h with
  | nil => rfl
  | cons a tl ih =>
    by_cases han : a.1 = name
    · have had : headersToRemove.contains a.1 = false := by
        rw [han]
        exact bool_eq_false _ (by simpa using hn)
      rw [List.filter_cons_of_pos (by simp only [had]; rfl)]
      rw [List.find?_cons_of_pos _ (by simpa using han),
        List.find?_cons_of_pos _ (by simpa using han)]
    · by_cases had : headersToRemove.contains a.1 = true
      · rw [List.filter_cons_of_neg (by simp only [had]; simp)]
        rw [List.find?_cons_of_neg _ (by simpa using han)]
        exact ih
      · rw [List.filter_cons_of_pos (by simp only [bool_eq_false _ had]; rfl)]
        rw [List.find?_cons_of_neg _ (by simpa using han),
          List.find?_cons_of_neg _ (by simpa using han)]
        exact ih

/-! ### Unfolding lemmas for the orchestrator -/

theorem responseProvider_err (req : Request) (env : Env)
    (hv : bodyIsValid req.body = .error ()) :
    responseProvider req env =
      (.thrown, ⟨false, false, false, [], "", "", .json (.bool false)⟩) := by
  unfold responseProvider
  rw [hv]

theorem responseProvider_ok_trace (req : Request) (env : Env) (valid : Bool)
    (hv : bodyIsValid req.body = .ok valid) :
    (responseProvider req env).2 =
      ⟨(leakCheck valid env).2.1, (leakCheck valid env).2.2, true,
        setHeader (removeHeaders req.headers) leakHeaderName
          [stringifyJsValue (leakCheck valid env).1],
        req.method, jsonStringify req.body, (leakCheck valid env).1⟩ := by
  unfold responseProvider
  rw [hv]
  obtain ⟨kg, lu, orig⟩ := env
  cases orig with
  | netError => rfl
  | resp r =>
    dsimp only
    split
    · rfl
    · split
      · rfl
      · rfl

theorem responseProvider_ok_result (req : Request) (env : Env) (valid : Bool)
    (r : OriginResp)
    (hv : bodyIsValid req.body = .ok valid) (ho : env.origin = .resp r) :
    (responseProvider req env).1 =
      if truthy (leakCheck valid env).1 && statusOk r.status then
        .response 200 poweredByHeaders warningHtml
      else if statusOk r.status then
        .response r.status r.headers r.body
      else .rejected ("failed sub-request: " ++ toString r.status) := by
  unfold responseProvider
  rw [hv, ho]
  dsimp only
  by_cases h1 : (truthy (leakCheck valid env).1 && statusOk r.status) = true
  · simp only [h1, if_true]
  · simp only [bool_eq_false _ h1, if_false, Bool.false_eq_true]
    by_cases h2 : statusOk r.status = true
    · simp only [h2, if_true]
    · simp only [bool_eq_false _ h2, if_false, Bool.false_eq_true]

/-! ### The claims -/

/-- C1: in every invocation whose Leak Flag resolved to `true` and whose
origin response is successful, `responseProvider` returns a synthesized
response with status 200, the fixed warning HTML body and the custom
marker header, discarding the real origin body. -/
theorem c1_leak_hit_warning_page (req : Request) (env : Env) (r : OriginResp)
    (hf : (responseProvider req env).2.flag = .json (.bool true))
    (ho : env.origin = .resp r) (hok : statusOk r.status = true) :
    (responseProvider req env).1 =
      .response 200 poweredByHeaders warningHtml := by
  cases hv : bodyIsValid req.body with
  | error e =>
    cases e
    rw [responseProvider_err req env hv] at hf
    simp at hf
  | ok valid =>
    rw [responseProvider_ok_trace req env valid hv] at hf
    rw [responseProvider_ok_result req env valid r hv ho]
    dsimp only at hf
    rw [hf]
    simp [truthy, hok]

/-- Witness for C1: the spec's leak-hit scenario end to end. -/
theorem c1_witness :
    (responseProvider
        ⟨[], "POST", .obj [("username", .str "ab"), ("password", .str "abc")]⟩
        ⟨.resp ⟨200, .ok (.obj [("key", .str "XYZ123")])⟩,
         .resp ⟨200, .ok (.arr [.obj [("result", .bool true)]])⟩,
         .resp ⟨200, [("h1", [some "v1"])], "OK"⟩⟩).1 =
      .response 200 poweredByHeaders warningHtml :=
  c1_leak_hit_warning_page _ _ ⟨200, [("h1", [some "v1"])], "OK"⟩ (by decide) rfl rfl

/-- C7: in every invocation that relayed to the origin with the Leak
Flag `false` and got a successful origin response, `responseProvider`
returns the origin's status, headers and body verbatim. -/
theorem c7_no_hit_passthrough (req : Request) (env : Env) (r : OriginResp)
    (hf : (responseProvider req env).2.flag = .json (.bool false))
    (hc : (responseProvider req env).2.originCalled = true)
    (ho : env.origin = .resp r) (hok : statusOk r.status = true) :
    (responseProvider req env).1 = .response r.status r.headers r.body := by
  cases hv : bodyIsValid req.body with
  | error e =>
    cases e
    rw [responseProvider_err req env hv] at hc
    simp at hc
  | ok valid =>
    rw [responseProvider_ok_trace req env valid hv] at hf
    rw [responseProvider_ok_result req env valid r hv ho]
    dsimp only at hf
    rw [hf]
    simp [truthy, hok]

/-- Witness for C7: the spec's no-hit scenario end to end. -/
theorem c7_witness :
    (responseProvider
        ⟨[], "POST", .obj [("username", .str "ab"), ("password", .str "abc")]⟩
        ⟨.resp ⟨200, .ok (.obj [("key", .str "XYZ123")])⟩,
         .resp ⟨200, .ok (.arr [.obj [("result", .bool false)]])⟩,
         .resp ⟨200, [("h1", [some "v1"])], "OK"⟩⟩).1 =
      .response 200 [("h1", [some "v1"])] "OK" :=
  c7_no_hit_passthrough _ _ ⟨200, [("h1", [some "v1"])], "OK"⟩ (by decide) (by decide) rfl rfl

/-- C8: in every invocation that relayed to the origin and got a
non-successful origin response, `responseProvider` rejects with a reason
carrying the origin's status code, whatever the Leak Flag value. -/
theorem c8_origin_failure_rejected (req : Request) (env : Env) (r : OriginResp)
    (ho : env.origin = .resp r) (hok : statusOk r.status = false)
    (hc : (responseProvider req env).2.originCalled = true) :
    (responseProvider req env).1 =
      .rejected ("failed sub-request: " ++ toString r.status) := by
  cases hv : bodyIsValid req.body with
  | error e =>
    cases e
    rw [responseProvider_err req env hv] at hc
    simp at hc
  | ok valid =>
    rw [responseProvider_ok_result req env valid r hv ho]
    simp [hok]

/-- Witness for C8: the spec's 503 scenario, null body. -/
theorem c8_witness :
    (responseProvider ⟨[], "POST", Json.null⟩
        ⟨.netError, .netError, .resp ⟨503, [], "unavailable"⟩⟩).1 =
      .rejected "failed sub-request: 503" :=
  c8_origin_failure_rejected _ _ ⟨503, [], "unavailable"⟩ rfl rfl rfl

/-- C10: for every request whose body is absent or fails JSON parsing
(parsed body `null`), the origin request is still issued and its body is
the literal string `null` — the JSON stringification of the parsed body,
not the raw bytes and not empty. -/
theorem c10_null_body_relayed (req : Request) (env : Env)
    (hb : req.body = Json.null) :
    (responseProvider req env).2.originCalled = true ∧
    (responseProvider req env).2.sentBody = "null" := by
  have hv : bodyIsValid req.body = .ok false := by rw [hb]; rfl
  rw [responseProvider_ok_trace req env false hv]
  exact ⟨rfl, by dsimp only; rw [hb]; rfl⟩

/-- Witness for C10: a null parsed body relayed with body string `null`. -/
theorem c10_witness :
    (responseProvider ⟨[("a", [some "b"])], "POST", Json.null⟩
        ⟨.netError, .netError, .resp ⟨200, [], "OK"⟩⟩).2.originCalled = true ∧
    (responseProvider ⟨[("a", [some "b"])], "POST", Json.null⟩
        ⟨.netError, .netError, .resp ⟨200, [], "OK"⟩⟩).2.sentBody = "null" :=
  c10_null_body_relayed _ _ rfl

theorem getKey_none_of_failure (o : FetchOutcome) (hf : keyGenFailure o) :
    getKeyFromKeyGenerator o = none := by
  rcases hf with rfl | ⟨r, rfl, h⟩
  · rfl
  · unfold getKeyFromKeyGenerator
    rcases h with hs | hj | ⟨j, hj, hk⟩
    · simp [hs]
    · by_cases hst : statusOk r.status = true
      · simp [hst, hj]
      · simp [bool_eq_false _ hst]
    · by_cases hst : statusOk r.status = true
      · simp only [hst, if_true, hj]
        rcases hk with hk | hk <;> rw [hk]
      · simp [bool_eq_false _ hst]

/-- C5: every failure of the key-generator call — network error,
non-success status, JSON-parse error, or missing `key` field — makes
`getKeyFromKeyGenerator` return `null`, and the pipeline still executes
the origin relay stage (and skips the lookup). -/
theorem c5_keygen_failure_relay_still_runs (req : Request) (env : Env)
    (hf : keyGenFailure env.keyGen)
    (hc : (responseProvider req env).2.keyGenCalled = true) :
    getKeyFromKeyGenerator env.keyGen = none ∧
    (responseProvider req env).2.originCalled = true ∧
    (responseProvider req env).2.lookupCalled = false := by
  have hk := getKey_none_of_failure env.keyGen hf
  cases hv : bodyIsValid req.body with
  | error e =>
    cases e
    rw [responseProvider_err req env hv] at hc
    simp at hc
  | ok valid =>
    rw [responseProvider_ok_trace req env valid hv] at hc ⊢
    dsimp only at hc ⊢
    refine ⟨hk, rfl, ?_⟩
    cases valid with
    | false => simp [leakCheck] at hc
    | true => simp [leakCheck, hk]

/-- Witness for C5: a 500 with unparseable body from the key-generator,
valid credentials; the origin call still happens. -/
theorem c5_witness :
    getKeyFromKeyGenerator (.resp ⟨500, .error ()⟩) = none ∧
    (responseProvider
        ⟨[], "POST", .obj [("username", .str "ab"), ("password", .str "abc")]⟩
        ⟨.resp ⟨500, .error ()⟩, .netError, .resp ⟨200, [], "OK"⟩⟩).2.originCalled = true ∧
    (responseProvider
        ⟨[], "POST", .obj [("username", .str "ab"), ("password", .str "abc")]⟩
        ⟨.resp ⟨500, .error ()⟩, .netError, .resp ⟨200, [], "OK"⟩⟩).2.lookupCalled = false :=
  c5_keygen_failure_relay_still_runs
    ⟨[], "POST", .obj [("username", .str "ab"), ("password", .str "abc")]⟩
    ⟨.resp ⟨500, .error ()⟩, .netError, .resp ⟨200, [], "OK"⟩⟩
    (Or.inr ⟨⟨500, .error ()⟩, rfl, Or.inl rfl⟩) (by decide)

/-- Full characterization of the header mapping sent to the origin: the
synthetic leak header carries the stringified flag; names that exactly
match a deny-list entry are gone; every other name reads as in the
inbound request. -/
theorem sentHeaders_getHeader (req : Request) (env : Env)
    (hc : (responseProvider req env).2.originCalled = true) (name : String) :
    getHeader (responseProvider req env).2.sentHeaders name =
      if name = leakHeaderName then
        some [stringifyJsValue (responseProvider req env).2.flag]
      else if name ∈ headersToRemove then none
      else getHeader req.headers name := by
  cases hv : bodyIsValid req.body with
  | error e =>
    cases e
    rw [responseProvider_err req env hv] at hc
    simp at hc
  | ok valid =>
    rw [responseProvider_ok_trace req env valid hv]
    dsimp only
    rw [getHeader_setHeader]
    by_cases hn : name = leakHeaderName
    · rw [if_pos hn, if_pos hn]
    · rw [if_neg hn, if_neg hn]
      by_cases hm : name ∈ headersToRemove
      · rw [getHeader_removeHeaders_mem _ _ hm, if_pos hm]
      · rw [getHeader_removeHeaders_not_mem _ _ hm, if_neg hm]

/-- C4 counterexample: the all-lowercase casing of the proxy-authenticate
name is (case-insensitively) a deny-list name, yet a header so named
survives into the relayed mapping with its value unchanged — the
source's `delete` loop matches the mixed-case list entry only. -/
theorem c4_counterexample :
    "proxy-authenticate" ∈ headersToRemove.map lowerStr ∧
    getHeader
        (responseProvider ⟨[("proxy-authenticate", [some "v"])], "GET", Json.null⟩
          ⟨.netError, .netError, .resp ⟨200, [], ""⟩⟩).2.sentHeaders
        "proxy-authenticate" =
      some [some "v"] :=
  ⟨by decide, rfl⟩

/-- C4 (amended): the relayed mapping equals the original headers with
exactly the names that string-match a deny-list entry removed — the
match is case-sensitive, so the proxy-authenticate name is only removed
in the list's mixed casing — all other headers unchanged, plus the
synthetic leak header. -/
theorem c4_header_filtering_exact (req : Request) (env : Env) (name : String)
    (hc : (responseProvider req env).2.originCalled = true) :
    getHeader (responseProvider req env).2.sentHeaders name =
      if name = leakHeaderName then
        some [stringifyJsValue (responseProvider req env).2.flag]
      else if name ∈ headersToRemove then none
      else getHeader req.headers name :=
  sentHeaders_getHeader req env hc name

/-- Witness for C4: a deny-listed name is gone, an ordinary name reads
back unchanged. -/
theorem c4_witness :
    getHeader (responseProvider sampleReq sampleEnv).2.sentHeaders "host" = none ∧
    getHeader (responseProvider sampleReq sampleEnv).2.sentHeaders "x-custom" =
      some [some "o"] := by
  constructor
  · rw [c4_header_filtering_exact sampleReq sampleEnv "host" (by decide)]
    decide
  · rw [c4_header_filtering_exact sampleReq sampleEnv "x-custom" (by decide)]
    decide

/-- C3 counterexample: a lookup reply whose first element has a
non-boolean `result` field is returned verbatim by `keyExists` — a
truthy string, not `false`, so the Leak Flag does not resolve to false. -/
theorem c3_counterexample :
    keyExists (.resp ⟨200, .ok (.arr [.obj [("result", .str "yes")]])⟩) =
      .json (.str "yes") ∧
    truthy (keyExists (.resp ⟨200, .ok (.arr [.obj [("result", .str "yes")]])⟩)) =
      true :=
  ⟨rfl, rfl⟩

/-- C3 (amended): `keyExists` never raises; it returns `false` on a
network error, a non-success status, an unparseable reply, or a
`response[0]["result"]` access that itself throws; but when the reply
parses and that access yields a value — `undefined` for a missing
`result` field, or the field's value when non-boolean — that value is
returned verbatim rather than `false`. -/
theorem c3_lookup_failure_behavior (r : FetchResp) :
    keyExists .netError = .json (.bool false) ∧
    (statusOk r.status = false → keyExists (.resp r) = .json (.bool false)) ∧
    (r.jsonBody = .error () → keyExists (.resp r) = .json (.bool false)) ∧
    (∀ j, r.jsonBody = .ok j → lookupResultAccess j = .error () →
      keyExists (.resp r) = .json (.bool false)) ∧
    (∀ j v, statusOk r.status = true → r.jsonBody = .ok j →
      lookupResultAccess j = .ok v → keyExists (.resp r) = v) := by
  refine ⟨rfl, ?_, ?_, ?_, ?_⟩
  · intro hs
    unfold keyExists
    simp [hs]
  · intro hj
    unfold keyExists
    by_cases hs : statusOk r.status = true
    · simp [hs, hj]
    · simp [bool_eq_false _ hs]
  · intro j hj hacc
    unfold keyExists
    by_cases hs : statusOk r.status = true
    · simp only [hs, if_true, hj, eq_self_iff_true]
      unfold lookupResultAccess at hacc
      cases hg : jsGetField j "0" with
      | error e =>
        cases e
        simp [hg]
      | ok v0 =>
        rw [hg] at hacc
        dsimp only at hacc
        cases hv2 : jsValGetField v0 "result" with
        | error e =>
          cases e
          simp [hg, hv2]
        | ok w =>
          rw [hv2] at hacc
          cases hacc
    · simp [bool_eq_false _ hs]
  · intro j v hs hj hacc
    unfold keyExists
    unfold lookupResultAccess at hacc
    simp only [hs, if_true, hj]
    cases hg : jsGetField j "0" with
    | error e =>
      rw [hg] at hacc
      cases hacc
    | ok v0 =>
      rw [hg] at hacc
      dsimp only at hacc
      simp [hg, hacc]

/-- Witness for C3: a parse failure yields `false`; a well-formed reply
with a boolean `result` is returned as that boolean. -/
theorem c3_witness :
    keyExists (.resp ⟨404, .error ()⟩) = .json (.bool false) ∧
    keyExists (.resp ⟨200, .ok (.arr [.obj [("result", .bool true)]])⟩) =
      .json (.bool true) :=
  ⟨(c3_lookup_failure_behavior ⟨404, .error ()⟩).2.2.1 rfl,
   (c3_lookup_failure_behavior ⟨200, .ok (.arr [.obj [("result", .bool true)]])⟩).2.2.2.2
     (.arr [.obj [("result", .bool true)]]) (.json (.bool true)) rfl rfl rfl⟩

/-- C6 counterexample: with a valid body, a derived key, and a lookup
reply whose first element lacks the `result` field, the relayed
leak-flag header's single value is the stringification of `undefined` —
not the string `true` and not the string `false`. -/
theorem c6_counterexample :
    (responseProvider
        ⟨[], "POST", .obj [("username", .str "ab"), ("password", .str "abc")]⟩
        ⟨.resp ⟨200, .ok (.obj [("key", .str "XYZ123")])⟩,
         .resp ⟨200, .ok (.arr [.obj []])⟩,
         .resp ⟨200, [], "OK"⟩⟩).2.originCalled = true ∧
    getHeader
        (responseProvider
          ⟨[], "POST", .obj [("username", .str "ab"), ("password", .str "abc")]⟩
          ⟨.resp ⟨200, .ok (.obj [("key", .str "XYZ123")])⟩,
           .resp ⟨200, .ok (.arr [.obj []])⟩,
           .resp ⟨200, [], "OK"⟩⟩).2.sentHeaders
        "x-nomoreleaks-hit" =
      some [none] :=
  ⟨rfl, rfl⟩

/-- C6 (amended): every relayed request carries the synthetic leak-flag
header, whose single value is the JSON stringification of the final
`knownKey` value; whenever that value is a boolean — which includes
every failure path of the auxiliary calls — the header value is the
literal `true` or `false`, but a lookup that yields `undefined` or a
non-boolean produces a different value. -/
theorem c6_leak_header_always_set (req : Request) (env : Env)
    (hc : (responseProvider req env).2.originCalled = true) :
    getHeader (responseProvider req env).2.sentHeaders leakHeaderName =
      some [stringifyJsValue (responseProvider req env).2.flag] ∧
    (∀ b, (responseProvider req env).2.flag = .json (.bool b) →
      getHeader (responseProvider req env).2.sentHeaders leakHeaderName =
        some [some (cond b "true" "false")]) := by
  have h := sentHeaders_getHeader req env hc leakHeaderName
  rw [if_pos rfl] at h
  refine ⟨h, fun b hb => ?_⟩
  rw [h, hb]
  rfl

/-- Witness for C6: the sample request relays with the header set to the
literal string `false`. -/
theorem c6_witness :
    getHeader (responseProvider sampleReq sampleEnv).2.sentHeaders leakHeaderName =
      some [some "false"] :=
  (c6_leak_header_always_set sampleReq sampleEnv (by decide)).2 false (by decide)

/-! ### Lemmas about the body validation -/

theorem jsGetField_length_ok (u : Json) (hn : u ≠ Json.null) :
    ∃ w, jsGetField u "length" = .ok w := by
  cases u with
  | null => exact absurd rfl hn
  | bool b => exact ⟨.undefined, rfl⟩
  | num n => exact ⟨.undefined, rfl⟩
  | str s => exact ⟨.json (.num s.length), rfl⟩
  | arr xs => exact ⟨.json (.num xs.length), rfl⟩
  | obj fs =>
    cases h : objGet fs "length" with
    | none => exact ⟨.undefined, by simp [jsGetField, h]⟩
    | some v => exact ⟨.json v, by simp [jsGetField, h]⟩

theorem objGet_of_jsGetField_obj (fs : List (String × Json)) (k : String) (v : Json)
    (h : jsGetField (Json.obj fs) k = .ok (.json v)) : objGet fs k = some v := by
  cases h2 : objGet fs k with
  | none => simp [jsGetField, h2] at h
  | some w =>
    simp only [jsGetField, h2, Except.ok.injEq, JsValue.json.injEq] at h
    rw [h]

theorem bodyIsValid_false_of_domain (body : Json)
    (hd : c2ClaimDomain body) (hs : safeBody body) :
    bodyIsValid body = .ok false := by
  rcases hs with rfl | ⟨xs, rfl⟩ | ⟨fs, rfl, hu, hp⟩
  · rfl
  · rfl
  · rcases hd with hdnull | hmiss | ⟨s, hsu, hslen⟩ | ⟨t, hpt, htlen⟩
    · simp at hdnull
    · by_cases h1 : (objGet fs "username").isSome = true
      · by_cases h2 : (objGet fs "password").isSome = true
        · exact absurd ⟨h1, h2⟩ hmiss
        · have hp0 : objGet fs "password" = none := by
            cases hp2 : objGet fs "password" with
            | none => rfl
            | some p => rw [hp2] at h2; simp at h2
          rcases Option.isSome_iff_exists.mp h1 with ⟨u, hu0⟩
          simp [bodyIsValid, jsIn, hu0, hp0]
      · have hu0 : objGet fs "username" = none := by
          cases hu2 : objGet fs "username" with
          | none => rfl
          | some u => rw [hu2] at h1; simp at h1
        simp [bodyIsValid, jsIn, hu0]
    · have hu0 : objGet fs "username" = some (.str s) :=
        objGet_of_jsGetField_obj fs _ _ hsu
      have e1 : jsGetField (Json.obj fs) "username" = .ok (.json (.str s)) := by
        simp [jsGetField, hu0]
      have e4 : jsGetField (Json.str s) "length" = .ok (.json (.num s.length)) := rfl
      have hlen : jsGtInt (.json (.num s.length)) 1 = false := by
        simp only [jsGtInt, toNumber?, decide_eq_false_iff_not, not_lt, gt_iff_lt]
        omega
      cases hp0 : objGet fs "password" with
      | none => simp [bodyIsValid, jsIn, hu0, hp0]
      | some p =>
        simp [bodyIsValid, jsIn, jsValGetField, hu0, hp0, e1, e4, hlen]
    · have hp0 : objGet fs "password" = some (.str t) :=
        objGet_of_jsGetField_obj fs _ _ hpt
      cases hu0 : objGet fs "username" with
      | none => simp [bodyIsValid, jsIn, hu0]
      | some u =>
        have hun : u ≠ Json.null := fun he => hu (by rw [hu0, he])
        obtain ⟨w, hw⟩ := jsGetField_length_ok u hun
        have e1 : jsGetField (Json.obj fs) "username" = .ok (.json u) := by
          simp [jsGetField, hu0]
        have e2 : jsGetField (Json.obj fs) "password" = .ok (.json (.str t)) := by
          simp [jsGetField, hp0]
        have e5 : jsGetField (Json.str t) "length" = .ok (.json (.num t.length)) := rfl
        by_cases hg : jsGtInt w 1 = true
        · have hlen2 : jsGtInt (.json (.num t.length)) 2 = false := by
            simp only [jsGtInt, toNumber?, decide_eq_false_iff_not, not_lt, gt_iff_lt]
            omega
          simp [bodyIsValid, jsIn, jsValGetField, hu0, hp0, e1, e2, e5, hw, hg, hlen2]
        · simp [bodyIsValid, jsIn, jsValGetField, hu0, hp0, e1, hw,
            bool_eq_false _ hg]

theorem bodyIsValid_ok_of_safe (body : Json) (hs : safeBody body) :
    ∃ b, bodyIsValid body = .ok b := by
  rcases hs with rfl | ⟨xs, rfl⟩ | ⟨fs, rfl, hu, hp⟩
  · exact ⟨false, rfl⟩
  · exact ⟨false, rfl⟩
  · cases hu0 : objGet fs "username" with
    | none => exact ⟨false, by simp [bodyIsValid, jsIn, hu0]⟩
    | some u =>
      cases hp0 : objGet fs "password" with
      | none => exact ⟨false, by simp [bodyIsValid, jsIn, hu0, hp0]⟩
      | some p =>
        have hun : u ≠ Json.null := fun he => hu (by rw [hu0, he])
        have hpn : p ≠ Json.null := fun he => hp (by rw [hp0, he])
        obtain ⟨w, hw⟩ := jsGetField_length_ok u hun
        obtain ⟨w2, hw2⟩ := jsGetField_length_ok p hpn
        have e1 : jsGetField (Json.obj fs) "username" = .ok (.json u) := by
          simp [jsGetField, hu0]
        have e2 : jsGetField (Json.obj fs) "password" = .ok (.json p) := by
          simp [jsGetField, hp0]
        by_cases hg : jsGtInt w 1 = true
        · exact ⟨jsGtInt w2 2,
            by simp [bodyIsValid, jsIn, jsValGetField, hu0, hp0, e1, e2, hw, hw2, hg]⟩
        · exact ⟨false,
            by simp [bodyIsValid, jsIn, jsValGetField, hu0, hp0, e1, hw,
              bool_eq_false _ hg]⟩

/-- C2 counterexample: a body that parses to a (non-null) JSON string has
neither credential field, so the claim asserts that only the origin call
is made; but the `in` check throws on the primitive and the invocation
dies with no origin call at all. -/
theorem c2_counterexample :
    c2ClaimDomain (Json.str "oops") ∧
    (responseProvider ⟨[], "POST", Json.str "oops"⟩
        ⟨.netError, .netError, .resp ⟨200, [], "OK"⟩⟩).2.originCalled = false ∧
    (responseProvider ⟨[], "POST", Json.str "oops"⟩
        ⟨.netError, .netError, .resp ⟨200, [], "OK"⟩⟩).1 = .thrown :=
  ⟨Or.inr (Or.inl (by decide)), rfl, rfl⟩

/-- C2 (amended): for bodies that are `null`, arrays, or objects whose
credential fields are non-null — i.e. those on which the validation does
not throw — a missing credential field or a too-short username (≤ 1) or
password (≤ 2) leaves the Leak Flag `false`, never calls the
key-generator or the lookup, and makes only the origin call; bodies
parsing to non-null primitives instead throw before any outbound call. -/
theorem c2_invalid_body_no_keygen (req : Request) (env : Env)
    (hd : c2ClaimDomain req.body) (hs : safeBody req.body) :
    (responseProvider req env).2.keyGenCalled = false ∧
    (responseProvider req env).2.lookupCalled = false ∧
    (responseProvider req env).2.originCalled = true ∧
    (responseProvider req env).2.flag = .json (.bool false) := by
  have hb := bodyIsValid_false_of_domain req.body hd hs
  rw [responseProvider_ok_trace req env false hb]
  exact ⟨rfl, rfl, rfl, rfl⟩

/-- Witness for C2: the spec's username-`"a"` scenario — validation
fails, only the origin call is made. -/
theorem c2_witness :
    (responseProvider
        ⟨[], "POST", .obj [("username", .str "a"), ("password", .str "abc")]⟩
        sampleEnv).2.keyGenCalled = false ∧
    (responseProvider
        ⟨[], "POST", .obj [("username", .str "a"), ("password", .str "abc")]⟩
        sampleEnv).2.lookupCalled = false ∧
    (responseProvider
        ⟨[], "POST", .obj [("username", .str "a"), ("password", .str "abc")]⟩
        sampleEnv).2.originCalled = true ∧
    (responseProvider
        ⟨[], "POST", .obj [("username", .str "a"), ("password", .str "abc")]⟩
        sampleEnv).2.flag = .json (.bool false) :=
  c2_invalid_body_no_keygen
    ⟨[], "POST", .obj [("username", .str "a"), ("password", .str "abc")]⟩
    sampleEnv
    (Or.inr (Or.inr (Or.inl ⟨"a", by decide, by decide⟩)))
    (Or.inr (Or.inr ⟨[("username", .str "a"), ("password", .str "abc")], rfl,
      by decide, by decide⟩))

/-- C9 counterexample: a body parsing to the number 42 makes the
validation's `in` check throw a TypeError that propagates: the
invocation dies and the origin is never called, contradicting
"never raises". -/
theorem c9_counterexample :
    bodyIsValid (Json.num 42) = .error () ∧
    (responseProvider ⟨[], "POST", Json.num 42⟩
        ⟨.netError, .netError, .resp ⟨200, [], "OK"⟩⟩).1 = .thrown ∧
    (responseProvider ⟨[], "POST", Json.num 42⟩
        ⟨.netError, .netError, .resp ⟨200, [], "OK"⟩⟩).2.originCalled = false :=
  ⟨rfl, rfl, rfl⟩

/-- C9 (amended): the validation step never raises on bodies that are
`null`, arrays, or objects whose credential fields are non-null: it
yields a verdict and the pipeline always proceeds to the origin call;
for non-null primitive bodies (numbers, strings, booleans) the `in`
check throws and the error propagates out of the validation stage. -/
theorem c9_validation_no_throw_on_safe (req : Request) (env : Env)
    (hs : safeBody req.body) :
    (∃ b, bodyIsValid req.body = .ok b) ∧
    (responseProvider req env).2.originCalled = true := by
  obtain ⟨b, hb⟩ := bodyIsValid_ok_of_safe req.body hs
  refine ⟨⟨b, hb⟩, ?_⟩
  rw [responseProvider_ok_trace req env b hb]

/-- Witness for C9: a null body validates without raising and the origin
is called. -/
theorem c9_witness :
    (∃ b, bodyIsValid Json.null = .ok b) ∧
    (responseProvider sampleReq sampleEnv).2.originCalled = true :=
  c9_validation_no_throw_on_safe sampleReq sampleEnv (Or.inl rfl)

end NoMoreLeaks
